import Mathlib

/-
  Verification of pkg/controller/nodedaemon/reconcile.go from the
  local-storage-operator repository.

  The file shallowly embeds the two functions of that file,
  cleanupOldDaemonsets and Reconcile, over an explicit model of the
  cluster client (list / get / delete of daemonsets, label-selected pod
  lists).  The client is an oracle: its answers are fields of a
  structure, so every run of the embedded code is a pure computation.
  Effects (which daemonsets were deleted, how many poll attempts ran)
  are returned explicitly so that frame properties can be stated.
-/

set_option autoImplicit false

namespace LocalStorage

/-- Constant oldProvisionerName from reconcile.go. -/
def oldProvisionerName : String := "localvolumeset-local-provisioner"

/-- Constant oldLVDiskMakerPrefix from reconcile.go. -/
def oldLVDiskMakerPfx : String := "local-volume-diskmaker-"

/-- Constant oldLVProvisionerPrefix from reconcile.go. -/
def oldLVProvisionerPfx : String := "local-volume-provisioner-"

/-- Constant appLabelKey from reconcile.go. -/
def appLabelKey : String := "app"

/-- Constant dataHashAnnotationKey from reconcile.go. -/
def dataHashAnnotationKey : String := "local.storage.openshift.io/configMapDataHash"

/-- Go strings.HasPrefix s p: p is a byte-wise initial segment of s. -/
def strHasPfx (s p : String) : Bool := p.data.isPrefixOf s.data

/-- Lookup in a Go map modelled as an association list (first hit wins;
a Go map has unique keys, so lists used as label maps never repeat keys). -/
def lookupLabel : List (String × String) → String → Option String
  | [], _ => none
  | (k, v) :: rest, key => if k = key then some v else lookupLabel rest key

/-- Error kinds distinguished by the code: apierrors.IsNotFound,
apierrors.IsGone, the wait.ErrWaitTimeout of the backoff loop, and
everything else. -/
inductive KError where
  | notFound
  | gone
  | waitTimeout
  | other (msg : String)
deriving DecidableEq, Repr

/-- apierrors.IsNotFound. -/
def KError.isNotFound : KError → Bool
  | .notFound => true
  | _ => false

/-- apierrors.IsGone. -/
def KError.isGone : KError → Bool
  | .gone => true
  | _ => false

/-- A daemonset as the cleanup code sees it: its name and its labels. -/
structure DaemonSet where
  name : String
  labels : List (String × String)
deriving DecidableEq, Repr

/-- A pod as the drain poll sees it: its labels. -/
structure Pod where
  labels : List (String × String)
deriving DecidableEq, Repr

/-- Oracle model of the split client used by cleanupOldDaemonsets.
dsList is the answer to listing daemonsets in the namespace; getResult
answers Get by name; deleteResult gives the error (if any) of deleting
the daemonset with a given name; pods gives the pods present in the
store at the k-th drain-poll attempt, and podListErr the raw store error
of that list call. -/
structure Client where
  dsList : Except KError (List DaemonSet)
  getResult : String → Except KError DaemonSet
  deleteResult : String → Option KError
  pods : Nat → List Pod
  podListErr : Nat → Option KError

/-- Observable side effects of one cleanupOldDaemonsets call: whether the
daemonset list was requested, the names whose Delete was issued, in
order, and how many drain-poll attempts ran. -/
structure Effects where
  listedDS : Bool
  deleted : List String
  pollAttempts : Nat
deriving DecidableEq, Repr

/-- Effects of a call that touched nothing. -/
def noEffects : Effects := ⟨false, [], 0⟩

/-- Result of one cleanupOldDaemonsets call: the returned error (ok for
nil), the value of the deletedStaticProvisioner latch afterwards, and
the observable effects. -/
structure CleanupResult where
  result : Except KError Unit
  latch : Bool
  effects : Effects
deriving Repr

/-- The first loop of cleanupOldDaemonsets (reconcile.go lines 108-123):
walk the listed daemonsets; for each one carrying an app label whose
value starts with one of the two deprecated prefixes, remember the label
value and issue a Delete; a NotFound or Gone delete error is ignored,
any other delete error stops the loop.  Returns the collected app label
values, the names whose Delete was issued, and the stopping error. -/
def cleanupScanLoop (c : Client) : List DaemonSet → List String × List String × Option KError
  | [] => ([], [], none)
  | ds :: rest =>
    match lookupLabel ds.labels appLabelKey with
    | none => cleanupScanLoop c rest
    | some appLabel =>
      if strHasPfx appLabel oldLVDiskMakerPfx || strHasPfx appLabel oldLVProvisionerPfx then
        match c.deleteResult ds.name with
        | some e =>
          if e.isNotFound || e.isGone then
            let r := cleanupScanLoop c rest
            (appLabel :: r.1, ds.name :: r.2.1, r.2.2)
          else
            ([appLabel], [ds.name], some e)
        | none =>
          let r := cleanupScanLoop c rest
          (appLabel :: r.1, ds.name :: r.2.1, r.2.2)
      else cleanupScanLoop c rest

/-- The second phase of cleanupOldDaemonsets (reconcile.go lines
126-138): Get the daemonset named oldProvisionerName; if found, Delete
it (NotFound and Gone delete errors ignored, others returned); a get
error other than NotFound or Gone is returned.  Takes and extends the
list of names whose Delete was issued. -/
def provisionerPhase (c : Client) (deleted : List String) : List String × Option KError :=
  match c.getResult oldProvisionerName with
  | Except.ok _ =>
    match c.deleteResult oldProvisionerName with
    | some e =>
      if e.isNotFound || e.isGone then (deleted ++ [oldProvisionerName], none)
      else (deleted ++ [oldProvisionerName], some e)
    | none => (deleted ++ [oldProvisionerName], none)
  | Except.error e =>
    if e.isNotFound || e.isGone then (deleted, none)
    else (deleted, some e)

/-- The appNameList visible to the k-th (0-based) execution of the poll
closure: the Go closure reassigns the captured slice, appending
oldProvisionerName once per call before building the selector, so at
attempt k the list is the scan-loop result followed by k+1 copies. -/
def appNameListAt (base : List String) (k : Nat) : List String :=
  base ++ List.replicate (k + 1) oldProvisionerName

/-- The label selector built by the poll closure: requirement app in
appNameList.  A pod matches when it carries the app label and its value
is one of the listed names. -/
def podMatches (names : List String) (p : Pod) : Bool :=
  match lookupLabel p.labels appLabelKey with
  | some v => decide (v ∈ names)
  | none => false

/-- One execution of the poll closure (reconcile.go lines 147-165):
list pods matching the selector; a NotFound list error leaves the pod
list empty (hence reports done), any other list error is returned;
otherwise done exactly when zero pods matched. -/
def pollCondition (c : Client) (base : List String) (k : Nat) : Except KError Bool :=
  match c.podListErr k with
  | some e => if e.isNotFound then Except.ok true else Except.error e
  | none => Except.ok (((c.pods k).filter (podMatches (appNameListAt base k))).length == 0)

/-- wait.ExponentialBackoff: run the condition while steps remain; a
condition error or done stops the loop; exhausting the steps yields
ErrWaitTimeout.  Also returns the number of attempts executed, counting
from the given starting index. -/
def backoffLoop (c : Client) (base : List String) : Nat → Nat → Except KError Unit × Nat
  | 0, k => (Except.error KError.waitTimeout, k)
  | steps + 1, k =>
    match pollCondition c base k with
    | Except.error e => (Except.error e, k + 1)
    | Except.ok true => (Except.ok (), k + 1)
    | Except.ok false => backoffLoop c base steps (k + 1)

/-- The wait.Backoff configuration record.  Durations are in seconds;
factor and jitter are exact rationals. -/
structure Backoff where
  cap : ℚ
  duration : ℚ
  factor : ℚ
  jitter : ℚ
  steps : Nat
deriving DecidableEq, Repr

/-- The literal passed to wait.ExponentialBackoff at reconcile.go lines
141-146: Cap two minutes, Duration one second, Factor 1.7, Jitter 1,
Steps 20. -/
def cleanupBackoff : Backoff := ⟨120, 1, 17 / 10, 1, 20⟩

/-- cleanupOldDaemonsets (reconcile.go lines 96-173) as a function of
the client oracle and the incoming latch value. -/
def cleanupOldDaemonsets (c : Client) (latch : Bool) : CleanupResult :=
  if latch then ⟨Except.ok (), latch, noEffects⟩
  else
    match c.dsList with
    | Except.error e => ⟨Except.error e, false, ⟨true, [], 0⟩⟩
    | Except.ok items =>
      let scan := cleanupScanLoop c items
      match scan.2.2 with
      | some e => ⟨Except.error e, false, ⟨true, scan.2.1, 0⟩⟩
      | none =>
        let p2 := provisionerPhase c scan.2.1
        match p2.2 with
        | some e => ⟨Except.error e, false, ⟨true, p2.1, 0⟩⟩
        | none =>
          let wl := backoffLoop c scan.1 cleanupBackoff.steps 0
          match wl.1 with
          | Except.error e => ⟨Except.error e, false, ⟨true, p2.1, wl.2⟩⟩
          | Except.ok _ => ⟨Except.ok (), true, ⟨true, p2.1, wl.2⟩⟩

/-- The appNameList base produced by the scan loop of a client (empty
when the daemonset list itself failed, in which case the poll is never
reached). -/
def baseOf (c : Client) : List String :=
  match c.dsList with
  | Except.ok items => (cleanupScanLoop c items).1
  | Except.error _ => []

/-- The aggregated desired state returned by aggregateDeamonInfo at
reconcile.go line 67: the LocalVolumeSet items, the LocalVolume items,
tolerations, owner references and the node selector.  Only the lengths
of the two item lists are inspected by Reconcile; items are kept as
opaque tokens. -/
structure AggregateInfo where
  lvSetItems : List String
  lvItems : List String
  tolerations : List String
  ownerRefs : List String
  nodeSelector : String
deriving DecidableEq, Repr

/-- The provisioner configmap: only its Data payload matters here. -/
structure ConfigMap where
  data : List (String × String)
deriving DecidableEq, Repr

/-- Upsert outcome of controllerutil.CreateOrUpdate. -/
inductive OpResult where
  | unchanged
  | created
  | updated
deriving DecidableEq, Repr

/-- The diskmaker daemonset object as the mutation function shapes it. -/
structure DaemonSetObj where
  annotations : List (String × String)
  tolerations : List String
  ownerRefs : List String
  nodeSelector : String
deriving DecidableEq, Repr

def emptyStr : String := ""

/-- A zero-valued daemonset object, as constructed when the store had
none. -/
def emptyDS : DaemonSetObj := ⟨[], [], [], emptyStr⟩

/-- Set-or-insert a key in an association list, keeping the other
entries. -/
def setAssoc : List (String × String) → String → String → List (String × String)
  | [], key, v => [(key, v)]
  | (k, w) :: rest, key, v =>
    if k = key then (key, v) :: rest else (k, w) :: setAssoc rest key v

def sepSemi : String := ";"

def sepEq : String := "="

/-- Boolean lexicographic order on character lists, used to canonicalize
the hash input. -/
def charListLe : List Char → List Char → Bool
  | [], _ => true
  | _ :: _, [] => false
  | a :: as, b :: bs =>
    if a.val < b.val then true
    else if b.val < a.val then false
    else charListLe as bs

def strLeB (a b : String) : Bool := charListLe a.data b.data

def insertSorted (s : String) : List String → List String
  | [] => [s]
  | t :: rest => if strLeB s t then s :: t :: rest else t :: insertSorted s rest

def sortStrings : List String → List String
  | [] => []
  | s :: rest => insertSorted s (sortStrings rest)

/-- Modelled from the spec: the Fingerprinter contract (dataHash at
reconcile.go line 82; its body is not under src).  Per the spec it is a
deterministic, order-independent digest of the key-value payload, so the
serialized pairs are sorted before being joined. -/
def dataHash (data : List (String × String)) : String :=
  String.intercalate sepSemi (sortStrings (data.map (fun kv => kv.1 ++ sepEq ++ kv.2)))

/-- Modelled from the spec: getDiskMakerDSMutateFn (reconcile.go line
84; its body is not under src).  Per the spec the mutation function sets
tolerations, owner references, the node selector, and the fingerprint
annotation of the daemonset object. -/
def getDiskMakerDSMutateFn (tol own : List String) (nodeSel hash : String)
    (ds : DaemonSetObj) : DaemonSetObj :=
  ⟨setAssoc ds.annotations dataHashAnnotationKey hash, tol, own, nodeSel⟩

/-- Modelled from the spec: CreateOrUpdateDaemonset (reconcile.go line
85; its body is not under src).  Per the Upserter contract of the spec:
fetch the object (or a zero value when absent), apply the mutation
function, write back only when the result differs from the read, and
report created, updated or unchanged.  Fetch errors other than absence,
and write errors, propagate. -/
def CreateOrUpdateDaemonset (fetch : Except KError (Option DaemonSetObj))
    (writeErr : Option KError)
    (mutateFn : DaemonSetObj → DaemonSetObj) : Except KError (DaemonSetObj × OpResult) :=
  match fetch with
  | Except.error e => Except.error e
  | Except.ok none =>
    match writeErr with
    | some e => Except.error e
    | none => Except.ok (mutateFn emptyDS, OpResult.created)
  | Except.ok (some old) =>
    let obj := mutateFn old
    if obj = old then Except.ok (obj, OpResult.unchanged)
    else
      match writeErr with
      | some e => Except.error e
      | none => Except.ok (obj, OpResult.updated)

/-- Oracle environment of one Reconcile invocation: the cleanup client,
the answer of aggregateDeamonInfo, the answer of
reconcileProvisionerConfigMap, and the store state seen by the daemonset
upsert. -/
structure ReconcileEnv where
  client : Client
  aggregateResult : Except KError AggregateInfo
  configMapResult : Except KError (ConfigMap × OpResult)
  dsFetch : Except KError (Option DaemonSetObj)
  dsWriteErr : Option KError

/-- Outcome of one Reconcile invocation: the returned error (ok for a
nil error with an empty result), the latch afterwards, the configmap
returned by the config upsert and the daemonset returned by the
daemonset upsert when those steps ran, and which steps were invoked. -/
structure ReconcileOutcome where
  result : Except KError Unit
  latch : Bool
  configMap : Option ConfigMap
  ds : Option DaemonSetObj
  aggregateCalled : Bool
  configUpsertCalled : Bool
  dsUpsertCalled : Bool
  cleanupEffects : Effects
deriving Repr

/-- Reconcile (reconcile.go lines 58-93): run cleanupOldDaemonsets and
abort on its error; aggregate the desired state and abort on error;
no-op when both item lists are empty; upsert the configmap and abort on
error; hash the returned configmap payload, build the daemonset mutation
function from it, upsert the daemonset and abort on error. -/
def Reconcile (env : ReconcileEnv) (latch : Bool) : ReconcileOutcome :=
  let c := cleanupOldDaemonsets env.client latch
  match c.result with
  | Except.error e => ⟨Except.error e, c.latch, none, none, false, false, false, c.effects⟩
  | Except.ok _ =>
    match env.aggregateResult with
    | Except.error e => ⟨Except.error e, c.latch, none, none, true, false, false, c.effects⟩
    | Except.ok info =>
      if info.lvSetItems.length < 1 && info.lvItems.length < 1 then
        ⟨Except.ok (), c.latch, none, none, true, false, false, c.effects⟩
      else
        match env.configMapResult with
        | Except.error e => ⟨Except.error e, c.latch, none, none, true, true, false, c.effects⟩
        | Except.ok (cm, _) =>
          let hash := dataHash cm.data
          let mfn := getDiskMakerDSMutateFn info.tolerations info.ownerRefs info.nodeSelector hash
          match CreateOrUpdateDaemonset env.dsFetch env.dsWriteErr mfn with
          | Except.error e => ⟨Except.error e, c.latch, some cm, none, true, true, true, c.effects⟩
          | Except.ok (d, _) => ⟨Except.ok (), c.latch, some cm, some d, true, true, true, c.effects⟩

/-- The app label value of a daemonset when it matches one of the two
deprecated prefixes (the scan-loop selection criterion). -/
def oldLabelValue (ds : DaemonSet) : Option String :=
  match lookupLabel ds.labels appLabelKey with
  | some v =>
    if strHasPfx v oldLVDiskMakerPfx || strHasPfx v oldLVProvisionerPfx then some v else none
  | none => none

/-- Whether the scan loop selects a daemonset for deletion. -/
def matchesOldLabel (ds : DaemonSet) : Bool := (oldLabelValue ds).isSome

/-- Replace NotFound and Gone delete answers by plain success, leaving
every other answer alone. -/
def maskDel (f : String → Option KError) (n : String) : Option KError :=
  match f n with
  | some e => if e.isNotFound || e.isGone then none else some e
  | none => none

/-- The same client with NotFound and Gone delete answers replaced by
success. -/
def maskClient (c : Client) : Client :=
  ⟨c.dsList, c.getResult, maskDel c.deleteResult, c.pods, c.podListErr⟩

/-- The phases before the drain poll all succeed: the daemonset list
worked, the scan loop hit no fatal delete error, and the provisioner
phase hit no fatal get or delete error. -/
def prePollOk (c : Client) : Bool :=
  match c.dsList with
  | Except.error _ => false
  | Except.ok items =>
    match (cleanupScanLoop c items).2.2 with
    | some _ => false
    | none => ((provisionerPhase c (cleanupScanLoop c items).2.1).2).isNone

/-- A client over an empty namespace: no daemonsets, no pods, every get
answers NotFound. -/
def cEmpty : Client :=
  ⟨Except.ok [], fun _ => Except.error KError.notFound, fun _ => none, fun _ => [],
   fun _ => none⟩

/-- A pod permanently carrying the old provisioner app label. -/
def stuckPod : Pod := ⟨[(appLabelKey, oldProvisionerName)]⟩

/-- A client whose namespace holds no daemonsets but where one pod with
the old provisioner label never drains. -/
def cStuck : Client :=
  ⟨Except.ok [], fun _ => Except.error KError.notFound, fun _ => none, fun _ => [stuckPod],
   fun _ => none⟩

def customLabel : String := "custom-label"

/-- A daemonset bearing the deprecated exact name but an app label value
that matches neither deprecated prefix. -/
def dsCustom : DaemonSet := ⟨oldProvisionerName, [(appLabelKey, customLabel)]⟩

/-- A client whose namespace holds exactly dsCustom (gets of its name
succeed), with no pods. -/
def cCustom : Client :=
  ⟨Except.ok [dsCustom],
   fun n => if n = oldProvisionerName then Except.ok dsCustom else Except.error KError.notFound,
   fun _ => none, fun _ => [], fun _ => none⟩

def dmName : String := "old-diskmaker"

def dmLabel : String := "local-volume-diskmaker-vg1"

/-- A daemonset selected by the diskmaker prefix. -/
def dsDm : DaemonSet := ⟨dmName, [(appLabelKey, dmLabel)]⟩

def plainName : String := "unrelated"

def plainLabel : String := "unrelated-app"

/-- A daemonset matching nothing deprecated. -/
def dsPlain : DaemonSet := ⟨plainName, [(appLabelKey, plainLabel)]⟩

/-- A daemonset with no app label at all. -/
def dsNoLabel : DaemonSet := ⟨plainName, []⟩

/-- A client holding one prefix-matched daemonset, one unrelated one and
one without labels; the exact-named provisioner is absent and pods drain
immediately. -/
def cScan : Client :=
  ⟨Except.ok [dsDm, dsPlain, dsNoLabel],
   fun _ => Except.error KError.notFound,
   fun _ => none, fun _ => [], fun _ => none⟩

def boomMsg : String := "boom"

/-- A client whose delete of the prefix-matched daemonset fails with an
error that is neither NotFound nor Gone. -/
def cHardDel : Client :=
  ⟨Except.ok [dsDm],
   fun _ => Except.error KError.notFound,
   fun n => if n = dmName then some (KError.other boomMsg) else none,
   fun _ => [], fun _ => none⟩

/-- A client whose daemonset list itself fails. -/
def cListErr : Client :=
  ⟨Except.error (KError.other boomMsg), fun _ => Except.error KError.notFound, fun _ => none,
   fun _ => [], fun _ => none⟩

/-- An aggregation answer with both item lists empty. -/
def infoEmpty : AggregateInfo := ⟨[], [], [], [], emptyStr⟩

def tokenA : String := "a"

/-- An aggregation answer with one LocalVolumeSet item. -/
def infoOne : AggregateInfo := ⟨[tokenA], [], [tokenA], [tokenA], tokenA⟩

/-- An environment whose cleanup client fails to list daemonsets. -/
def envBad : ReconcileEnv :=
  ⟨cListErr, Except.ok infoOne, Except.ok (⟨[]⟩, OpResult.unchanged), Except.ok none, none⟩

/-- An environment with a clean namespace and an empty desired state. -/
def envEmpty : ReconcileEnv :=
  ⟨cEmpty, Except.ok infoEmpty, Except.ok (⟨[]⟩, OpResult.unchanged), Except.ok none, none⟩

def keyK : String := "k"

def valV : String := "v"

/-- An environment that runs every step to success: clean namespace, one
desired item, a configmap with one entry, an absent daemonset to be
created. -/
def envFull : ReconcileEnv :=
  ⟨cEmpty, Except.ok infoOne, Except.ok (⟨[(keyK, valV)]⟩, OpResult.created), Except.ok none,
   none⟩

theorem maskClient_dsList (c : Client) : (maskClient c).dsList = c.dsList := rfl

theorem maskClient_get (c : Client) : (maskClient c).getResult = c.getResult := rfl

theorem maskClient_del (c : Client) :
    (maskClient c).deleteResult = maskDel c.deleteResult := rfl

theorem scanLoop_mask (c : Client) (items : List DaemonSet) :
    cleanupScanLoop (maskClient c) items = cleanupScanLoop c items := by
  induction items with
  | nil => rfl
  | cons ds rest ih =>
    simp only [cleanupScanLoop, maskClient_del]
    cases lookupLabel ds.labels appLabelKey with
    | none => exact ih
    | some v =>
      by_cases hp : (strHasPfx v oldLVDiskMakerPfx || strHasPfx v oldLVProvisionerPfx) = true
      · simp only [hp, if_true]
        cases hd : c.deleteResult ds.name with
        | none => simp [maskDel, hd, ih]
        | some e =>
          by_cases he : (e.isNotFound || e.isGone) = true
          · simp [maskDel, hd, he, ih]
          · simp [maskDel, hd, he]
      · simp only [hp, Bool.false_eq_true, if_false]
        exact ih

theorem provPhase_mask (c : Client) (d : List String) :
    provisionerPhase (maskClient c) d = provisionerPhase c d := by
  simp only [provisionerPhase, maskClient_del, maskClient_get]
  cases hg : c.getResult oldProvisionerName with
  | error e => rfl
  | ok ds =>
    cases hd : c.deleteResult oldProvisionerName with
    | none => simp [maskDel, hd]
    | some e =>
      by_cases he : (e.isNotFound || e.isGone) = true
      · simp [maskDel, hd, he]
      · simp [maskDel, hd, he]

theorem pollCondition_mask (c : Client) (base : List String) (k : Nat) :
    pollCondition (maskClient c) base k = pollCondition c base k := rfl

theorem backoffLoop_mask (c : Client) (base : List String) :
    ∀ s k, backoffLoop (maskClient c) base s k = backoffLoop c base s k := by
  intro s
  induction s with
  | zero => intro k; rfl
  | succ n ih =>
    intro k
    simp only [backoffLoop, pollCondition_mask]
    cases pollCondition c base k with
    | error e => rfl
    | ok b => cases b <;> simp [ih]

theorem cleanup_mask (c : Client) (b : Bool) :
    cleanupOldDaemonsets (maskClient c) b = cleanupOldDaemonsets c b := by
  cases b with
  | true => rfl
  | false =>
    simp only [cleanupOldDaemonsets, Bool.false_eq_true, if_false, maskClient_dsList]
    cases hds : c.dsList with
    | error e => rfl
    | ok items =>
      simp only [scanLoop_mask, provPhase_mask, backoffLoop_mask]


theorem scanLoop_no_err (c : Client) :
    ∀ items : List DaemonSet, (cleanupScanLoop c items).2.2 = none →
      (cleanupScanLoop c items).1 = items.filterMap oldLabelValue
      ∧ (cleanupScanLoop c items).2.1 =
          items.filterMap (fun ds => if matchesOldLabel ds then some ds.name else none) := by
  intro items
  induction items with
  | nil => intro _; exact ⟨rfl, rfl⟩
  | cons ds rest ih =>
    intro h
    cases hl : lookupLabel ds.labels appLabelKey with
    | none =>
      have hm : oldLabelValue ds = none := by simp [oldLabelValue, hl]
      have hmb : matchesOldLabel ds = false := by simp [matchesOldLabel, hm]
      simp only [cleanupScanLoop, hl] at h ⊢
      simp only [List.filterMap_cons, hm, hmb, Bool.false_eq_true, if_false]
      exact ih h
    | some v =>
      by_cases hp : (strHasPfx v oldLVDiskMakerPfx || strHasPfx v oldLVProvisionerPfx) = true
      · have hm : oldLabelValue ds = some v := by simp [oldLabelValue, hl, hp]
        have hmb : matchesOldLabel ds = true := by simp [matchesOldLabel, hm]
        cases hd : c.deleteResult ds.name with
        | none =>
          simp only [cleanupScanLoop, hl, hp, if_true, hd] at h ⊢
          have := ih h
          simp [List.filterMap_cons, hm, hmb, this.1, this.2]
        | some e =>
          by_cases he : (e.isNotFound || e.isGone) = true
          · simp only [cleanupScanLoop, hl, hp, if_true, hd, he] at h ⊢
            have := ih h
            simp [List.filterMap_cons, hm, hmb, this.1, this.2]
          · simp only [cleanupScanLoop, hl, hp, if_true, hd, he, Bool.false_eq_true,
              if_false] at h
            simp at h
      · have hm : oldLabelValue ds = none := by simp [oldLabelValue, hl, hp]
        have hmb : matchesOldLabel ds = false := by simp [matchesOldLabel, hm]
        simp only [cleanupScanLoop, hl, hp, Bool.false_eq_true, if_false] at h ⊢
        simp only [List.filterMap_cons, hm, hmb, Bool.false_eq_true, if_false]
        exact ih h

theorem scanLoop_err (c : Client) :
    ∀ (items : List DaemonSet) (e : KError), (cleanupScanLoop c items).2.2 = some e →
      ∃ ds, ds ∈ items ∧ matchesOldLabel ds = true ∧ c.deleteResult ds.name = some e
        ∧ e.isNotFound = false ∧ e.isGone = false := by
  intro items
  induction items with
  | nil => intro e h; simp [cleanupScanLoop] at h
  | cons ds rest ih =>
    intro e h
    cases hl : lookupLabel ds.labels appLabelKey with
    | none =>
      simp only [cleanupScanLoop, hl] at h
      obtain ⟨d, hmem, hrest⟩ := ih e h
      exact ⟨d, List.mem_cons_of_mem ds hmem, hrest⟩
    | some v =>
      by_cases hp : (strHasPfx v oldLVDiskMakerPfx || strHasPfx v oldLVProvisionerPfx) = true
      · cases hd : c.deleteResult ds.name with
        | none =>
          simp only [cleanupScanLoop, hl, hp, if_true, hd] at h
          obtain ⟨d, hmem, hrest⟩ := ih e h
          exact ⟨d, List.mem_cons_of_mem ds hmem, hrest⟩
        | some e2 =>
          by_cases he : (e2.isNotFound || e2.isGone) = true
          · simp only [cleanupScanLoop, hl, hp, if_true, hd, he] at h
            obtain ⟨d, hmem, hrest⟩ := ih e h
            exact ⟨d, List.mem_cons_of_mem ds hmem, hrest⟩
          · simp only [cleanupScanLoop, hl, hp, if_true, hd, he, Bool.false_eq_true, if_false,
              Option.some.injEq] at h
            subst h
            have hmb : matchesOldLabel ds = true := by
              simp [matchesOldLabel, oldLabelValue, hl, hp]
            simp only [Bool.or_eq_true, not_or, Bool.not_eq_true] at he
            exact ⟨ds, List.mem_cons_self ds rest, hmb, hd, he.1, he.2⟩
      · simp only [cleanupScanLoop, hl, hp, Bool.false_eq_true, if_false] at h
        obtain ⟨d, hmem, hrest⟩ := ih e h
        exact ⟨d, List.mem_cons_of_mem ds hmem, hrest⟩

theorem scanLoop_mem (c : Client) :
    ∀ (items : List DaemonSet) (n : String), n ∈ (cleanupScanLoop c items).2.1 →
      ∃ ds, ds ∈ items ∧ ds.name = n ∧ matchesOldLabel ds = true := by
  intro items
  induction items with
  | nil => intro n h; simp [cleanupScanLoop] at h
  | cons ds rest ih =>
    intro n h
    cases hl : lookupLabel ds.labels appLabelKey with
    | none =>
      simp only [cleanupScanLoop, hl] at h
      obtain ⟨d, hmem, hrest⟩ := ih n h
      exact ⟨d, List.mem_cons_of_mem ds hmem, hrest⟩
    | some v =>
      by_cases hp : (strHasPfx v oldLVDiskMakerPfx || strHasPfx v oldLVProvisionerPfx) = true
      · have hmb : matchesOldLabel ds = true := by
          simp [matchesOldLabel, oldLabelValue, hl, hp]
        cases hd : c.deleteResult ds.name with
        | none =>
          simp only [cleanupScanLoop, hl, hp, if_true, hd, List.mem_cons] at h
          cases h with
          | inl hn => exact ⟨ds, List.mem_cons_self ds rest, hn.symm, hmb⟩
          | inr hn =>
            obtain ⟨d, hmem, hrest⟩ := ih n hn
            exact ⟨d, List.mem_cons_of_mem ds hmem, hrest⟩
        | some e =>
          by_cases he : (e.isNotFound || e.isGone) = true
          · simp only [cleanupScanLoop, hl, hp, if_true, hd, he, if_true, List.mem_cons] at h
            cases h with
            | inl hn => exact ⟨ds, List.mem_cons_self ds rest, hn.symm, hmb⟩
            | inr hn =>
              obtain ⟨d, hmem, hrest⟩ := ih n hn
              exact ⟨d, List.mem_cons_of_mem ds hmem, hrest⟩
          · simp only [cleanupScanLoop, hl, hp, if_true, hd, he, Bool.false_eq_true, if_false,
              List.mem_singleton] at h
            exact ⟨ds, List.mem_cons_self ds rest, h.symm, hmb⟩
      · simp only [cleanupScanLoop, hl, hp, Bool.false_eq_true, if_false] at h
        obtain ⟨d, hmem, hrest⟩ := ih n h
        exact ⟨d, List.mem_cons_of_mem ds hmem, hrest⟩

theorem backoffLoop_timeout (c : Client) (base : List String)
    (h : ∀ k, pollCondition c base k = Except.ok false) :
    ∀ s k, backoffLoop c base s k = (Except.error KError.waitTimeout, k + s) := by
  intro s
  induction s with
  | zero => intro k; rfl
  | succ n ih =>
    intro k
    simp only [backoffLoop, h k]
    rw [ih (k + 1)]
    congr 1
    omega

theorem backoffLoop_le (c : Client) (base : List String) :
    ∀ s k, (backoffLoop c base s k).2 ≤ k + s := by
  intro s
  induction s with
  | zero => intro k; simp [backoffLoop]
  | succ n ih =>
    intro k
    simp only [backoffLoop]
    cases pollCondition c base k with
    | error e => simp only []; omega
    | ok b =>
      cases b
      · calc (backoffLoop c base n (k + 1)).2 ≤ (k + 1) + n := ih (k + 1)
          _ ≤ k + (n + 1) := by omega
      · simp only []; omega

theorem lookup_setAssoc (key v : String) :
    ∀ l : List (String × String), lookupLabel (setAssoc l key v) key = some v := by
  intro l
  induction l with
  | nil => simp [setAssoc, lookupLabel]
  | cons kv rest ih =>
    cases kv with
    | mk k w =>
      simp only [setAssoc]
      by_cases hk : k = key
      · rw [if_pos hk]
        simp [lookupLabel]
      · rw [if_neg hk]
        simp only [lookupLabel, hk, if_false]
        simpa [hk] using ih


theorem reconcile_latch_eq (env : ReconcileEnv) (b : Bool) :
    (Reconcile env b).latch = (cleanupOldDaemonsets env.client b).latch := by
  unfold Reconcile
  cases hr : (cleanupOldDaemonsets env.client b).result with
  | error e => simp only [hr]
  | ok u =>
    simp only [hr]
    cases hag : env.aggregateResult with
    | error e => rfl
    | ok info =>
      by_cases hlen : (info.lvSetItems.length < 1 && info.lvItems.length < 1) = true
      · simp only [hlen, if_true]
      · simp only [hlen, Bool.false_eq_true, if_false]
        cases hcm : env.configMapResult with
        | error e => rfl
        | ok pr =>
          cases pr with
          | mk cm op =>
            cases hco : CreateOrUpdateDaemonset env.dsFetch env.dsWriteErr
                (getDiskMakerDSMutateFn info.tolerations info.ownerRefs info.nodeSelector
                  (dataHash cm.data)) with
            | error e => simp [hco]
            | ok p => cases p with | mk d op2 => simp [hco]

theorem cleanup_latch_true (c : Client) :
    (cleanupOldDaemonsets c false).latch = true →
    (cleanupOldDaemonsets c false).result = Except.ok ()
    ∧ (backoffLoop c (baseOf c) cleanupBackoff.steps 0).1 = Except.ok () := by
  intro h
  cases hds : c.dsList with
  | error e => simp only [cleanupOldDaemonsets, Bool.false_eq_true, if_false, hds] at h
  | ok items =>
    cases hscan : (cleanupScanLoop c items).2.2 with
    | some e =>
      simp only [cleanupOldDaemonsets, Bool.false_eq_true, if_false, hds, hscan] at h
    | none =>
      cases hp2 : (provisionerPhase c (cleanupScanLoop c items).2.1).2 with
      | some e =>
        simp only [cleanupOldDaemonsets, Bool.false_eq_true, if_false, hds, hscan, hp2] at h
      | none =>
        cases hwl : (backoffLoop c (cleanupScanLoop c items).1 cleanupBackoff.steps 0).1 with
        | error e =>
          simp only [cleanupOldDaemonsets, Bool.false_eq_true, if_false, hds, hscan, hp2,
            hwl] at h
        | ok u =>
          cases u
          constructor
          · simp only [cleanupOldDaemonsets, Bool.false_eq_true, if_false, hds, hscan, hp2, hwl]
          · simp only [baseOf, hds]
            rw [hwl]

/-- C1: once the deletedStaticProvisioner latch is true, every call to
cleanupOldDaemonsets returns nil at once with no listing, deletion or
polling; the latch becomes true only when the run succeeded and its
drain-wait loop finished without error; and no operation of the
reconciler resets a true latch to false. -/
theorem c1_cleanup_latch_absorbing :
    (∀ c : Client, cleanupOldDaemonsets c true = ⟨Except.ok (), true, noEffects⟩)
    ∧ (∀ c : Client, (cleanupOldDaemonsets c false).latch = true →
        (cleanupOldDaemonsets c false).result = Except.ok ()
        ∧ (backoffLoop c (baseOf c) cleanupBackoff.steps 0).1 = Except.ok ())
    ∧ (∀ env : ReconcileEnv, (Reconcile env true).latch = true) :=
  ⟨fun _ => rfl, cleanup_latch_true, fun env => by rw [reconcile_latch_eq]; rfl⟩

/-- Witness for C1 at the empty-namespace client. -/
theorem c1_cleanup_latch_absorbing_witness :
    (cleanupOldDaemonsets cEmpty false).result = Except.ok ()
    ∧ (backoffLoop cEmpty (baseOf cEmpty) cleanupBackoff.steps 0).1 = Except.ok () :=
  c1_cleanup_latch_absorbing.2.1 cEmpty rfl

/-- C6: with the latch unset, a cleanup error makes Reconcile return
that error at once: neither aggregation nor either upsert runs. -/
theorem c6_cleanup_error_aborts (env : ReconcileEnv) (e : KError)
    (h : (cleanupOldDaemonsets env.client false).result = Except.error e) :
    (Reconcile env false).result = Except.error e
    ∧ (Reconcile env false).aggregateCalled = false
    ∧ (Reconcile env false).configUpsertCalled = false
    ∧ (Reconcile env false).dsUpsertCalled = false := by
  unfold Reconcile
  simp [h]

/-- Witness for C6 at an environment whose daemonset list fails. -/
theorem c6_cleanup_error_aborts_witness :
    (Reconcile envBad false).result = Except.error (KError.other boomMsg)
    ∧ (Reconcile envBad false).aggregateCalled = false
    ∧ (Reconcile envBad false).configUpsertCalled = false
    ∧ (Reconcile envBad false).dsUpsertCalled = false :=
  c6_cleanup_error_aborts envBad (KError.other boomMsg) rfl

/-- C7: a successful cleanup followed by an aggregation with both item
lists empty is a successful no-op: no configmap and no daemonset upsert
is attempted. -/
theorem c7_empty_desired_noop (env : ReconcileEnv) (b : Bool) (info : AggregateInfo)
    (hc : (cleanupOldDaemonsets env.client b).result = Except.ok ())
    (ha : env.aggregateResult = Except.ok info)
    (h1 : info.lvSetItems = []) (h2 : info.lvItems = []) :
    (Reconcile env b).result = Except.ok ()
    ∧ (Reconcile env b).configUpsertCalled = false
    ∧ (Reconcile env b).dsUpsertCalled = false
    ∧ (Reconcile env b).configMap = none
    ∧ (Reconcile env b).ds = none := by
  unfold Reconcile
  simp only [hc, ha, h1, h2, List.length_nil]
  norm_num

/-- Witness for C7 at the empty environment with the latch already set. -/
theorem c7_empty_desired_noop_witness :
    (Reconcile envEmpty true).result = Except.ok ()
    ∧ (Reconcile envEmpty true).configUpsertCalled = false
    ∧ (Reconcile envEmpty true).dsUpsertCalled = false
    ∧ (Reconcile envEmpty true).configMap = none
    ∧ (Reconcile envEmpty true).ds = none :=
  c7_empty_desired_noop envEmpty true infoEmpty rfl rfl rfl rfl


theorem createOrUpdate_ok (f : Except KError (Option DaemonSetObj)) (w : Option KError)
    (mfn : DaemonSetObj → DaemonSetObj) (d : DaemonSetObj) (op : OpResult)
    (h : CreateOrUpdateDaemonset f w mfn = Except.ok (d, op)) :
    ∃ b0, d = mfn b0 := by
  cases f with
  | error e => simp [CreateOrUpdateDaemonset] at h
  | ok o =>
    cases o with
    | none =>
      cases w with
      | some e => simp [CreateOrUpdateDaemonset] at h
      | none =>
        simp only [CreateOrUpdateDaemonset, Except.ok.injEq, Prod.mk.injEq] at h
        exact ⟨emptyDS, h.1.symm⟩
    | some old =>
      simp only [CreateOrUpdateDaemonset] at h
      by_cases he : mfn old = old
      · rw [if_pos he] at h
        simp only [Except.ok.injEq, Prod.mk.injEq] at h
        exact ⟨old, h.1.symm⟩
      · rw [if_neg he] at h
        cases w with
        | some e => simp at h
        | none =>
          simp only [Except.ok.injEq, Prod.mk.injEq] at h
          exact ⟨old, h.1.symm⟩

theorem mutate_annotation (tol own : List String) (ns hash : String) (b0 : DaemonSetObj) :
    lookupLabel (getDiskMakerDSMutateFn tol own ns hash b0).annotations dataHashAnnotationKey
      = some hash :=
  lookup_setAssoc dataHashAnnotationKey hash b0.annotations

/-- C8: whenever a Reconcile pass succeeds having produced a configmap
and a daemonset, the daemonset carries the fingerprint annotation whose
value is the hash of the just-written configmap payload. -/
theorem c8_hash_annotation (env : ReconcileEnv) (b : Bool) (cm : ConfigMap)
    (d : DaemonSetObj)
    (hr : (Reconcile env b).result = Except.ok ())
    (hcm : (Reconcile env b).configMap = some cm)
    (hds : (Reconcile env b).ds = some d) :
    lookupLabel d.annotations dataHashAnnotationKey = some (dataHash cm.data) := by
  cases hc : (cleanupOldDaemonsets env.client b).result with
  | error e =>
    simp only [Reconcile, hc] at hcm
    simp at hcm
  | ok u =>
    cases hag : env.aggregateResult with
    | error e =>
      simp only [Reconcile, hc, hag] at hcm
      simp at hcm
    | ok info =>
      by_cases hlen : (info.lvSetItems.length < 1 && info.lvItems.length < 1) = true
      · simp only [Reconcile, hc, hag, hlen, if_true] at hcm
        simp at hcm
      · cases hcmr : env.configMapResult with
        | error e =>
          simp only [Reconcile, hc, hag, hlen, Bool.false_eq_true, if_false, hcmr] at hcm
          simp at hcm
        | ok pr =>
          obtain ⟨cm2, op⟩ := pr
          cases hco : CreateOrUpdateDaemonset env.dsFetch env.dsWriteErr
              (getDiskMakerDSMutateFn info.tolerations info.ownerRefs info.nodeSelector
                (dataHash cm2.data)) with
          | error e =>
            simp only [Reconcile, hc, hag, hlen, Bool.false_eq_true, if_false, hcmr,
              hco] at hds
            simp at hds
          | ok p =>
            obtain ⟨d2, op2⟩ := p
            simp only [Reconcile, hc, hag, hlen, Bool.false_eq_true, if_false, hcmr,
              hco] at hcm hds
            simp only [Option.some.injEq] at hcm hds
            obtain ⟨b0, hb⟩ := createOrUpdate_ok _ _ _ _ _ hco
            rw [← hds, hb, ← hcm]
            exact mutate_annotation _ _ _ _ _

def wCM : ConfigMap := ⟨[(keyK, valV)]⟩

def wDS : DaemonSetObj :=
  getDiskMakerDSMutateFn infoOne.tolerations infoOne.ownerRefs infoOne.nodeSelector
    (dataHash wCM.data) emptyDS

/-- Witness for C8 at the fully successful environment. -/
theorem c8_hash_annotation_witness :
    lookupLabel wDS.annotations dataHashAnnotationKey = some (dataHash wCM.data) :=
  c8_hash_annotation envFull true wCM wDS rfl rfl rfl

/-- C3: the backoff passed to the drain wait is Duration one second,
Factor 1.7, positive Jitter, Cap 120 seconds, Steps 20; the poll runs at
most Steps attempts, and when every attempt reports not-done the cleanup
returns the timeout error with the latch still false after exactly Steps
attempts. -/
theorem c3_backoff_config_and_exhaustion :
    cleanupBackoff.duration = 1 ∧ cleanupBackoff.factor = 17 / 10
    ∧ 0 < cleanupBackoff.jitter ∧ cleanupBackoff.cap = 120 ∧ cleanupBackoff.steps = 20
    ∧ (∀ c : Client, (cleanupOldDaemonsets c false).effects.pollAttempts ≤ cleanupBackoff.steps)
    ∧ (∀ c : Client, prePollOk c = true →
        (∀ k, pollCondition c (baseOf c) k = Except.ok false) →
        (cleanupOldDaemonsets c false).result = Except.error KError.waitTimeout
        ∧ (cleanupOldDaemonsets c false).latch = false
        ∧ (cleanupOldDaemonsets c false).effects.pollAttempts = cleanupBackoff.steps) := by
  refine ⟨rfl, rfl, by norm_num [cleanupBackoff], rfl, rfl, fun c => ?_, fun c hpre hcond => ?_⟩
  · cases hds : c.dsList with
    | error e =>
      simp [cleanupOldDaemonsets, hds]
    | ok items =>
      cases hscan : (cleanupScanLoop c items).2.2 with
      | some e => simp [cleanupOldDaemonsets, hds, hscan]
      | none =>
        cases hp2 : (provisionerPhase c (cleanupScanLoop c items).2.1).2 with
        | some e => simp [cleanupOldDaemonsets, hds, hscan, hp2]
        | none =>
          have hle := backoffLoop_le c (cleanupScanLoop c items).1 cleanupBackoff.steps 0
          cases hwl : (backoffLoop c (cleanupScanLoop c items).1 cleanupBackoff.steps 0).1 with
          | error e =>
            simp only [cleanupOldDaemonsets, Bool.false_eq_true, if_false, hds, hscan, hp2,
              hwl]
            omega
          | ok u =>
            simp only [cleanupOldDaemonsets, Bool.false_eq_true, if_false, hds, hscan, hp2,
              hwl]
            omega
  · cases hds : c.dsList with
    | error e => simp [prePollOk, hds] at hpre
    | ok items =>
      cases hscan : (cleanupScanLoop c items).2.2 with
      | some e => simp [prePollOk, hds, hscan] at hpre
      | none =>
        cases hp2 : (provisionerPhase c (cleanupScanLoop c items).2.1).2 with
        | some e => simp [prePollOk, hds, hscan, hp2] at hpre
        | none =>
          have hb : baseOf c = (cleanupScanLoop c items).1 := by simp [baseOf, hds]
          have hwl := backoffLoop_timeout c (baseOf c) hcond cleanupBackoff.steps 0
          rw [hb] at hwl
          simp only [cleanupOldDaemonsets, Bool.false_eq_true, if_false, hds, hscan, hp2, hwl]
          simp

/-- Witness for C3 at the client with one never-draining pod. -/
theorem c3_backoff_config_and_exhaustion_witness :
    (cleanupOldDaemonsets cStuck false).result = Except.error KError.waitTimeout
    ∧ (cleanupOldDaemonsets cStuck false).latch = false
    ∧ (cleanupOldDaemonsets cStuck false).effects.pollAttempts = cleanupBackoff.steps :=
  c3_backoff_config_and_exhaustion.2.2.2.2.2.2 cStuck rfl (by
    intro k
    simp [pollCondition, cStuck, stuckPod, podMatches, appNameListAt, lookupLabel,
      List.mem_replicate])

/-- C4: with a successful pod list, a drain-poll attempt reports done
exactly when zero pods match the retirement selector, and a not-done
answer makes the loop consume one step and move to the next attempt. -/
theorem c4_poll_done_iff_zero (c : Client) (base : List String) (k s : Nat)
    (h : c.podListErr k = none) :
    (pollCondition c base k = Except.ok true
      ↔ ((c.pods k).filter (podMatches (appNameListAt base k))).length = 0)
    ∧ (pollCondition c base k = Except.ok false →
        backoffLoop c base (s + 1) k = backoffLoop c base s (k + 1)) := by
  constructor
  · simp [pollCondition, h]
  · intro hf
    simp [backoffLoop, hf]

/-- Witness for C4 at the empty client, first attempt. -/
theorem c4_poll_done_iff_zero_witness :
    (pollCondition cEmpty [] 0 = Except.ok true
      ↔ ((cEmpty.pods 0).filter (podMatches (appNameListAt [] 0))).length = 0)
    ∧ (pollCondition cEmpty [] 0 = Except.ok false →
        backoffLoop cEmpty [] 1 0 = backoffLoop cEmpty [] 0 1) :=
  c4_poll_done_iff_zero cEmpty [] 0 0 rfl


theorem provPhase_err (c : Client) (d : List String) (e : KError)
    (h : (provisionerPhase c d).2 = some e) :
    e.isNotFound = false ∧ e.isGone = false := by
  cases hg : c.getResult oldProvisionerName with
  | ok dsp =>
    cases hd : c.deleteResult oldProvisionerName with
    | none => simp [provisionerPhase, hg, hd] at h
    | some e2 =>
      by_cases he : (e2.isNotFound || e2.isGone) = true
      · simp [provisionerPhase, hg, hd, he] at h
      · simp only [provisionerPhase, hg, hd, he, Bool.false_eq_true, if_false,
          Option.some.injEq] at h
        subst h
        simp only [Bool.or_eq_true, not_or, Bool.not_eq_true] at he
        exact he
  | error eg =>
    by_cases he : (eg.isNotFound || eg.isGone) = true
    · simp [provisionerPhase, hg, he] at h
    · simp only [provisionerPhase, hg, he, Bool.false_eq_true, if_false,
        Option.some.injEq] at h
      subst h
      simp only [Bool.or_eq_true, not_or, Bool.not_eq_true] at he
      exact he

theorem provPhase_deleted (c : Client) (d : List String) :
    (provisionerPhase c d).1
      = d ++ (match c.getResult oldProvisionerName with
          | Except.ok _ => [oldProvisionerName]
          | Except.error _ => []) := by
  cases hg : c.getResult oldProvisionerName with
  | ok dsp =>
    cases hd : c.deleteResult oldProvisionerName with
    | none => simp [provisionerPhase, hg, hd]
    | some e =>
      by_cases he : (e.isNotFound || e.isGone) = true
      · simp [provisionerPhase, hg, hd, he]
      · simp [provisionerPhase, hg, hd, he]
  | error eg =>
    by_cases he : (eg.isNotFound || eg.isGone) = true
    · simp [provisionerPhase, hg, he]
    · simp [provisionerPhase, hg, he]

theorem cleanup_deleted_eq (c : Client) (items : List DaemonSet)
    (hds : c.dsList = Except.ok items)
    (hscan : (cleanupScanLoop c items).2.2 = none) :
    (cleanupOldDaemonsets c false).effects.deleted
      = (provisionerPhase c (cleanupScanLoop c items).2.1).1 := by
  cases hp2 : (provisionerPhase c (cleanupScanLoop c items).2.1).2 with
  | some e =>
    simp only [cleanupOldDaemonsets, Bool.false_eq_true, if_false, hds, hscan, hp2]
  | none =>
    cases hwl : (backoffLoop c (cleanupScanLoop c items).1 cleanupBackoff.steps 0).1 with
    | error e =>
      simp only [cleanupOldDaemonsets, Bool.false_eq_true, if_false, hds, hscan, hp2, hwl]
    | ok u =>
      simp only [cleanupOldDaemonsets, Bool.false_eq_true, if_false, hds, hscan, hp2, hwl]

theorem cleanup_listed (c : Client) :
    (cleanupOldDaemonsets c false).effects.listedDS = true := by
  cases hds : c.dsList with
  | error e => simp [cleanupOldDaemonsets, hds]
  | ok items =>
    cases hscan : (cleanupScanLoop c items).2.2 with
    | some e => simp [cleanupOldDaemonsets, hds, hscan]
    | none =>
      cases hp2 : (provisionerPhase c (cleanupScanLoop c items).2.1).2 with
      | some e => simp [cleanupOldDaemonsets, hds, hscan, hp2]
      | none =>
        cases hwl : (backoffLoop c (cleanupScanLoop c items).1 cleanupBackoff.steps 0).1 with
        | error e => simp [cleanupOldDaemonsets, hds, hscan, hp2, hwl]
        | ok u => simp [cleanupOldDaemonsets, hds, hscan, hp2, hwl]

/-- C5: NotFound and Gone delete errors are transparent (masking them to
success changes nothing observable); a scan-loop error is always a
NotFound-and-Gone-free delete error of a matched daemonset; any such
scan or provisioner-phase error is returned by cleanupOldDaemonsets with
the latch still false; provisioner-phase errors are never NotFound or
Gone; and an unlatched pass always re-lists the namespace. -/
theorem c5_delete_error_policy :
    (∀ (c : Client) (b : Bool),
        cleanupOldDaemonsets (maskClient c) b = cleanupOldDaemonsets c b)
    ∧ (∀ (c : Client) (items : List DaemonSet) (e : KError),
        (cleanupScanLoop c items).2.2 = some e →
        ∃ ds, ds ∈ items ∧ matchesOldLabel ds = true ∧ c.deleteResult ds.name = some e
          ∧ e.isNotFound = false ∧ e.isGone = false)
    ∧ (∀ (c : Client) (items : List DaemonSet) (e : KError),
        c.dsList = Except.ok items → (cleanupScanLoop c items).2.2 = some e →
        (cleanupOldDaemonsets c false).result = Except.error e
        ∧ (cleanupOldDaemonsets c false).latch = false)
    ∧ (∀ (c : Client) (items : List DaemonSet) (e : KError),
        c.dsList = Except.ok items → (cleanupScanLoop c items).2.2 = none →
        (provisionerPhase c (cleanupScanLoop c items).2.1).2 = some e →
        (cleanupOldDaemonsets c false).result = Except.error e
        ∧ (cleanupOldDaemonsets c false).latch = false)
    ∧ (∀ (c : Client) (d : List String) (e : KError),
        (provisionerPhase c d).2 = some e → e.isNotFound = false ∧ e.isGone = false)
    ∧ (∀ c : Client, (cleanupOldDaemonsets c false).effects.listedDS = true) := by
  refine ⟨cleanup_mask, scanLoop_err, ?_, ?_, provPhase_err, cleanup_listed⟩
  · intro c items e hds hscan
    simp only [cleanupOldDaemonsets, Bool.false_eq_true, if_false, hds, hscan]
    simp
  · intro c items e hds hscan hp2
    simp only [cleanupOldDaemonsets, Bool.false_eq_true, if_false, hds, hscan, hp2]
    simp

/-- Witness for C5 at the client whose prefixed daemonset fails to
delete with a non-NotFound, non-Gone error. -/
theorem c5_delete_error_policy_witness :
    (cleanupOldDaemonsets cHardDel false).result = Except.error (KError.other boomMsg)
    ∧ (cleanupOldDaemonsets cHardDel false).latch = false :=
  c5_delete_error_policy.2.2.1 cHardDel [dsDm] (KError.other boomMsg) rfl rfl

theorem oldLabelValue_pfx (ds : DaemonSet) (v : String)
    (h : oldLabelValue ds = some v) :
    (strHasPfx v oldLVDiskMakerPfx || strHasPfx v oldLVProvisionerPfx) = true := by
  cases hl : lookupLabel ds.labels appLabelKey with
  | none => simp [oldLabelValue, hl] at h
  | some w =>
    by_cases hp : (strHasPfx w oldLVDiskMakerPfx || strHasPfx w oldLVProvisionerPfx) = true
    · simp only [oldLabelValue, hl, hp, if_true, Option.some.injEq] at h
      subst h
      exact hp
    · simp only [oldLabelValue, hl, hp, Bool.false_eq_true, if_false] at h
      exact absurd h (by simp)

theorem old_not_pfx :
    (strHasPfx oldProvisionerName oldLVDiskMakerPfx
      || strHasPfx oldProvisionerName oldLVProvisionerPfx) = false := by decide

theorem old_notin_scan (c : Client) (items : List DaemonSet)
    (hscan : (cleanupScanLoop c items).2.2 = none) :
    oldProvisionerName ∉ (cleanupScanLoop c items).1 := by
  intro hmem
  rw [(scanLoop_no_err c items hscan).1] at hmem
  obtain ⟨ds, hmemds, hval⟩ := List.mem_filterMap.mp hmem
  have := oldLabelValue_pfx ds oldProvisionerName hval
  rw [old_not_pfx] at this
  exact Bool.false_ne_true this

/-- C9: the poll closure re-appends the exact legacy name on every
attempt before building the selector, so the selector list always
contains the legacy name; assuming a clean scan, after k+1 attempts the
list holds exactly k+1 copies of it; and set-membership makes the pod
predicate identical across attempts. -/
theorem c9_retirement_list :
    (∀ (base : List String) (k : Nat), oldProvisionerName ∈ appNameListAt base k)
    ∧ (∀ (c : Client) (items : List DaemonSet) (k : Nat),
        c.dsList = Except.ok items → (cleanupScanLoop c items).2.2 = none →
        (appNameListAt (baseOf c) k).count oldProvisionerName = k + 1)
    ∧ (∀ (base : List String) (j k : Nat) (p : Pod),
        podMatches (appNameListAt base j) p = podMatches (appNameListAt base k) p) := by
  refine ⟨?_, ?_, ?_⟩
  · intro base k
    simp [appNameListAt, List.mem_append, List.mem_replicate]
  · intro c items k hds hscan
    have hb : baseOf c = (cleanupScanLoop c items).1 := by simp [baseOf, hds]
    have hnotin := old_notin_scan c items hscan
    rw [appNameListAt, hb, List.count_append, List.count_replicate_self,
      List.count_eq_zero.mpr hnotin]
    omega
  · intro base j k p
    unfold podMatches
    cases lookupLabel p.labels appLabelKey with
    | none => rfl
    | some v =>
      rw [decide_eq_decide]
      simp [appNameListAt, List.mem_append, List.mem_replicate]

/-- Witness for C9 at the three-daemonset client, third attempt. -/
theorem c9_retirement_list_witness :
    (appNameListAt (baseOf cScan) 2).count oldProvisionerName = 2 + 1 :=
  c9_retirement_list.2.1 cScan [dsDm, dsPlain, dsNoLabel] 2 rfl rfl

/-- C10: a name whose Delete is issued by cleanupOldDaemonsets is either
the exact legacy name or the name of a listed daemonset whose app label
value carries one of the two deprecated prefixes; every other daemonset,
including ones without an app label, is untouched. -/
theorem c10_frame (c : Client) (b : Bool) (n : String)
    (h : n ∈ (cleanupOldDaemonsets c b).effects.deleted) :
    n = oldProvisionerName
    ∨ ∃ items ds, c.dsList = Except.ok items ∧ ds ∈ items ∧ ds.name = n
        ∧ matchesOldLabel ds = true := by
  cases b with
  | true => simp [cleanupOldDaemonsets, noEffects] at h
  | false =>
    cases hds : c.dsList with
    | error e => simp [cleanupOldDaemonsets, hds] at h
    | ok items =>
      cases hscan : (cleanupScanLoop c items).2.2 with
      | some e =>
        simp only [cleanupOldDaemonsets, Bool.false_eq_true, if_false, hds, hscan] at h
        obtain ⟨ds, hm, hn, hml⟩ := scanLoop_mem c items n h
        exact Or.inr ⟨items, ds, rfl, hm, hn, hml⟩
      | none =>
        rw [cleanup_deleted_eq c items hds hscan, provPhase_deleted] at h
        rw [List.mem_append] at h
        cases h with
        | inl hin =>
          obtain ⟨ds, hm, hn, hml⟩ := scanLoop_mem c items n hin
          exact Or.inr ⟨items, ds, rfl, hm, hn, hml⟩
        | inr hin =>
          cases hg : c.getResult oldProvisionerName with
          | ok dsp =>
            rw [hg] at hin
            simp only [List.mem_singleton] at hin
            exact Or.inl hin
          | error eg => rw [hg] at hin; simp at hin

/-- Witness for C10: the deleted prefix-matched daemonset of the
three-daemonset client. -/
theorem c10_frame_witness :
    dmName = oldProvisionerName
    ∨ ∃ items ds, cScan.dsList = Except.ok items ∧ ds ∈ items ∧ ds.name = dmName
        ∧ matchesOldLabel ds = true :=
  c10_frame cScan false dmName (by decide)

/-- C2 counterexample: with a single daemonset carrying the deprecated
exact name but app label value custom-label, cleanup deletes it, yet its
label value is absent from the retirement list the drain poll uses, so
the label values of all matched objects are not all collected. -/
theorem c2_counterexample :
    oldProvisionerName ∈ (cleanupOldDaemonsets cCustom false).effects.deleted
    ∧ lookupLabel dsCustom.labels appLabelKey = some customLabel
    ∧ ¬ customLabel ∈ appNameListAt (baseOf cCustom) 0 := by decide

/-- C2 amended: the retirement list collects the label values of the
prefix-matched daemonsets only, and the constant exact legacy name is
appended per attempt; deletes are issued exactly for the prefix-matched
daemonsets plus, when its Get succeeds, the exact-named one. -/
theorem c2_retirement_set_amended (c : Client) (items : List DaemonSet) (k : Nat)
    (hds : c.dsList = Except.ok items)
    (hscan : (cleanupScanLoop c items).2.2 = none) :
    (cleanupScanLoop c items).1 = items.filterMap oldLabelValue
    ∧ appNameListAt (baseOf c) k
        = items.filterMap oldLabelValue ++ List.replicate (k + 1) oldProvisionerName
    ∧ (cleanupOldDaemonsets c false).effects.deleted
        = items.filterMap (fun ds => if matchesOldLabel ds then some ds.name else none)
          ++ (match c.getResult oldProvisionerName with
              | Except.ok _ => [oldProvisionerName]
              | Except.error _ => []) := by
  have hchar := scanLoop_no_err c items hscan
  refine ⟨hchar.1, ?_, ?_⟩
  · rw [appNameListAt]
    have hb : baseOf c = (cleanupScanLoop c items).1 := by simp [baseOf, hds]
    rw [hb, hchar.1]
  · rw [cleanup_deleted_eq c items hds hscan, provPhase_deleted, hchar.2]

/-- Witness for C2 amended at the three-daemonset client, first poll
attempt. -/
theorem c2_retirement_set_amended_witness :
    (cleanupScanLoop cScan [dsDm, dsPlain, dsNoLabel]).1
        = [dsDm, dsPlain, dsNoLabel].filterMap oldLabelValue
    ∧ appNameListAt (baseOf cScan) 0
        = [dsDm, dsPlain, dsNoLabel].filterMap oldLabelValue
          ++ List.replicate (0 + 1) oldProvisionerName
    ∧ (cleanupOldDaemonsets cScan false).effects.deleted
        = [dsDm, dsPlain, dsNoLabel].filterMap
            (fun ds => if matchesOldLabel ds then some ds.name else none)
          ++ (match cScan.getResult oldProvisionerName with
              | Except.ok _ => [oldProvisionerName]
              | Except.error _ => []) :=
  c2_retirement_set_amended cScan [dsDm, dsPlain, dsNoLabel] 0 rfl rfl

end LocalStorage
